import Mathlib

/-!
Verification of the wave/spawn orchestration core of the scarecrow game
(src/game/GameplayManager.ts and src/actors/CrowActor.ts), shallowly
embedded in Lean.

Terminology used throughout: a "crop" is the spec resource, a "crow" is
the spec agent, a "wave" is the spec round.  All times are rationals
(seconds); the random source of the spawn timetable is passed in
explicitly as a function, and the uniform random picks of findRandomCrop
are passed in as index seeds, so every definition is a pure function of
its inputs, exactly as the source code is a pure function of its timer
events and random draws.
-/

namespace Scarecrow

/-! ### Spawn timetable generator (GameplayManager.spawnBirdsOverTime)

The source pushes the fixed first offset 5.0 unconditionally, then for
i = 1 .. count-1 pushes a draw `Math.random() * 30`, then sorts
ascending.  `rand i` models the already-scaled i-th draw (a value in
[0, 30)).  JavaScript Array.prototype.sort with a numeric comparator is
an ascending sort; on rationals every correct sort produces the same
list, so insertion sort is a faithful model of it. -/

def spawnTimes (count : Nat) (rand : Nat → ℚ) : List ℚ :=
  List.insertionSort (fun a b => a ≤ b)
    ((5 : ℚ) :: (List.range (count - 1)).map (fun i => rand (i + 1)))

/-- C5 counterexample: for agent count n = 0 the generated timetable is
the one-element list [5], not the empty sequence the claim states: the
source pushes the fixed 5.0-second first offset before the `for` loop,
unconditionally, so a bird spawn is scheduled even when count = 0. -/
theorem C5_counterexample :
    spawnTimes 0 (fun _ => 0) = [5] ∧ spawnTimes 0 (fun _ => 0) ≠ ([] : List ℚ) := by
  exact ⟨rfl, by decide⟩

/-- C5 amended: for agent count n = 0 the spawn timetable generator
produces the one-element sequence [t0] = [5] (the fixed first-spawn
offset is pushed unconditionally, so one spawn is still scheduled), and
it does not raise an error (the generator is a total function). -/
theorem C5_theorem (rand : Nat → ℚ) : spawnTimes 0 rand = [5] := rfl

/-- C6 counterexample: for n = 2 with the single random draw equal to 2
seconds, the generated ascending sequence is [2, 5]: its first element
is the draw 2, not the fixed first-spawn offset t0 = 5, because the
source sorts the draws together with the fixed offset and a draw below
5 moves in front of it. -/
theorem C6_counterexample :
    spawnTimes 2 (fun _ => 2) = [2, 5] ∧
    (spawnTimes 2 (fun _ => 2)).head? = some 2 ∧
    (spawnTimes 2 (fun _ => 2)).head? ≠ some 5 := by
  refine ⟨rfl, rfl, by decide⟩

/-- C6 amended: for every agent count n ≥ 1 the spawn timetable is an
ascending sequence of exactly n non-negative offsets; it is, as a
multiset, the fixed first-spawn offset t0 = 5 together with the n-1
draws from the random window [0, 30); in particular t0 occurs in it.
The first element of the sorted sequence is however the minimum of t0
and the draws, not always t0 (see the counterexample). -/
theorem C6_theorem (n : Nat) (hn : 1 ≤ n) (rand : Nat → ℚ)
    (hr : ∀ i, 0 ≤ rand i ∧ rand i < 30) :
    (spawnTimes n rand).length = n ∧
    (spawnTimes n rand).Sorted (· ≤ ·) ∧
    (5 : ℚ) ∈ spawnTimes n rand ∧
    (∀ x ∈ spawnTimes n rand, 0 ≤ x) ∧
    (spawnTimes n rand).Perm
      ((5 : ℚ) :: (List.range (n - 1)).map (fun i => rand (i + 1))) := by
  have hperm := List.perm_insertionSort (fun a b : ℚ => a ≤ b)
    ((5 : ℚ) :: (List.range (n - 1)).map (fun i => rand (i + 1)))
  refine ⟨?_, ?_, ?_, ?_, hperm⟩
  · rw [spawnTimes, List.length_insertionSort]
    simp only [List.length_cons, List.length_map, List.length_range]
    omega
  · exact List.sorted_insertionSort (fun a b : ℚ => a ≤ b) _
  · exact hperm.mem_iff.mpr (List.mem_cons_self _ _)
  · intro x hx
    have hx2 := hperm.mem_iff.mp hx
    rcases List.mem_cons.mp hx2 with h5 | hmap
    · rw [h5]; norm_num
    · rcases List.mem_map.mp hmap with ⟨i, _, hi⟩
      rw [← hi]; exact (hr (i + 1)).1

/-- C6 witness: the amended timetable theorem instantiated at n = 2 with
every draw equal to 2. -/
theorem C6_theorem_witness :
    (spawnTimes 2 (fun _ => 2)).length = 2 ∧
    (spawnTimes 2 (fun _ => 2)).Sorted (· ≤ ·) ∧
    (5 : ℚ) ∈ spawnTimes 2 (fun _ => 2) ∧
    (∀ x ∈ spawnTimes 2 (fun _ => 2), 0 ≤ x) ∧
    (spawnTimes 2 (fun _ => 2)).Perm
      ((5 : ℚ) :: (List.range (2 - 1)).map (fun _ => 2)) :=
  C6_theorem 2 (by decide) (fun _ => 2)
    (by intro i; show (0:ℚ) ≤ 2 ∧ (2:ℚ) < 30; exact ⟨by decide, by decide⟩)

/-! ### Per-crow deadline timer (CrowActor)

Shallow embedding of the four timer methods of CrowActor together with
the single-threaded timer system they use.  A DT value bundles the three
fields of the actor (deadlineTimer handle, deadlineTimerPaused,
deadlineRemainingTime) with the timer system state: the list of pending
(id, scheduled fire time) timeouts, a fresh-id counter, and the list of
times at which the expiry callback has been delivered.  Crucially, as in
the source, delivering the expiry callback does NOT null the stored
handle field, and pauseDeadlineTimer never recomputes
deadlineRemainingTime: it keeps whatever startDeadlineTimer stored. -/

structure DT where
  handle : Option Nat
  paused : Bool
  remaining : ℚ
  pending : List (Nat × ℚ)
  nextId : Nat
  fires : List ℚ
deriving DecidableEq

def dtInit : DT :=
  { handle := none, paused := false, remaining := 0,
    pending := [], nextId := 1, fires := [] }

def clearPending (l : List (Nat × ℚ)) (h : Nat) : List (Nat × ℚ) :=
  l.filter (fun p => p.1 ≠ h)

def startDeadlineTimer (st : DT) (timeSeconds now : ℚ) : DT :=
  { st with remaining := timeSeconds, paused := false,
            handle := some st.nextId,
            pending := st.pending ++ [(st.nextId, now + timeSeconds)],
            nextId := st.nextId + 1 }

def pauseDeadlineTimer (st : DT) : DT :=
  match st.handle with
  | some h =>
      if st.paused then st
      else { st with pending := clearPending st.pending h,
                     handle := none, paused := true }
  | none => st

def resumeDeadlineTimer (st : DT) (now : ℚ) : DT :=
  if st.paused ∧ 0 < st.remaining then
    { st with paused := false,
              handle := some st.nextId,
              pending := st.pending ++ [(st.nextId, now + st.remaining)],
              nextId := st.nextId + 1 }
  else st

def cancelDeadlineTimer (st : DT) : DT :=
  match st.handle with
  | some h =>
      { st with pending := clearPending st.pending h,
                handle := none, paused := false, remaining := 0 }
  | none => { st with handle := none, paused := false, remaining := 0 }

/-- A pending timeout with id h reaches its scheduled time and the timer
system delivers the callback (which invokes onDeadlineExpired); the
actor field holding the handle is not changed by the callback. -/
def fireTimer (st : DT) (h : Nat) : DT :=
  match st.pending.find? (fun p => p.1 == h) with
  | some p => { st with pending := clearPending st.pending h,
                        fires := st.fires ++ [p.2] }
  | none => st

/-- C2: a crow whose deadline timer was started with duration T at time
s and paused while Running holds the frozen remaining value r (which the
source never decrements, so r = T); resuming at any wall-clock time q
schedules the single pending expiry at q + r exactly, so the callback
fires exactly r seconds after the resume — independent of the delay
between pause and resume and of the time spent Running before the
pause, neither of which occurs in the resulting fire time. -/
theorem C2_theorem (T s q : ℚ) (hT : 0 < T) :
    (pauseDeadlineTimer (startDeadlineTimer dtInit T s)).remaining = T ∧
    (pauseDeadlineTimer (startDeadlineTimer dtInit T s)).pending = [] ∧
    (resumeDeadlineTimer (pauseDeadlineTimer (startDeadlineTimer dtInit T s)) q).pending
      = [(2, q + (pauseDeadlineTimer (startDeadlineTimer dtInit T s)).remaining)] ∧
    (fireTimer (resumeDeadlineTimer (pauseDeadlineTimer (startDeadlineTimer dtInit T s)) q) 2).fires
      = [q + T] := by
  have hpause : pauseDeadlineTimer (startDeadlineTimer dtInit T s)
      = { handle := none, paused := true, remaining := T,
          pending := [], nextId := 2, fires := [] } := by
    simp [startDeadlineTimer, dtInit, pauseDeadlineTimer, clearPending]
  rw [hpause]
  have hresume : resumeDeadlineTimer
      ({ handle := none, paused := true, remaining := T,
         pending := [], nextId := 2, fires := [] } : DT) q
      = { handle := some 2, paused := false, remaining := T,
          pending := [(2, q + T)], nextId := 3, fires := [] } := by
    simp [resumeDeadlineTimer, hT]
  rw [hresume]
  refine ⟨rfl, rfl, rfl, ?_⟩
  simp [fireTimer, clearPending]

/-- C2 witness: the pause/resume theorem instantiated at T = 10 seconds,
start time 0, resume time 103. -/
theorem C2_theorem_witness :
    (pauseDeadlineTimer (startDeadlineTimer dtInit 10 0)).remaining = 10 ∧
    (pauseDeadlineTimer (startDeadlineTimer dtInit 10 0)).pending = [] ∧
    (resumeDeadlineTimer (pauseDeadlineTimer (startDeadlineTimer dtInit 10 0)) 103).pending
      = [(2, 103 + (pauseDeadlineTimer (startDeadlineTimer dtInit 10 0)).remaining)] ∧
    (fireTimer (resumeDeadlineTimer (pauseDeadlineTimer (startDeadlineTimer dtInit 10 0)) 103) 2).fires
      = [103 + 10] :=
  C2_theorem 10 0 103 (by decide)

/-- C4 counterexample: the expiry callback can fire twice for a single
started timer.  Start with duration 10 at time 0 and let the timeout
fire at time 10; the source never nulls the stored handle in the expiry
path, so a subsequent pauseDeadlineTimer still sees a truthy handle and
enters the Paused state with the stale remaining value 10; a
resumeDeadlineTimer at time 20 then schedules a fresh timeout, which
fires again at time 30 — two deliveries in total, refuting the claim
that the callback fires at most once per timer across any sequence of
start/pause/resume/cancel operations. -/
theorem C4_counterexample :
    (fireTimer (resumeDeadlineTimer (pauseDeadlineTimer
        (fireTimer (startDeadlineTimer dtInit 10 0) 1)) 20) 2).fires.length = 2 := by
  rfl

/-! Arbitrary sequences of timer operations after a start, for the
at-most-once and cancel-safety properties. -/

inductive DTOp where
  | pauseOp : DTOp
  | resumeOp : ℚ → DTOp
  | cancelOp : DTOp
  | fireOp : Nat → DTOp
deriving DecidableEq

def dtStep (st : DT) : DTOp → DT
  | DTOp.pauseOp => pauseDeadlineTimer st
  | DTOp.resumeOp q => resumeDeadlineTimer st q
  | DTOp.cancelOp => cancelDeadlineTimer st
  | DTOp.fireOp h => fireTimer st h

def dtRun (st : DT) (ops : List DTOp) : DT := ops.foldl dtStep st

/-- At most one timeout is ever pending for the crow, and when one is
pending the actor handle refers to it.  This holds in every state the
timer methods can reach, because each of them clears the previous
timeout before scheduling a new one. -/
def dtPendingInv (st : DT) : Prop :=
  st.pending = [] ∨ ∃ h t, st.pending = [(h, t)] ∧ st.handle = some h

/-- State predicate for the conditional at-most-once argument: the
callback has been delivered at most once, and once it has, no timeout is
pending and the timer is not in the Paused state (only a pause on the
stale handle could leave that configuration). -/
def dtGood (st : DT) : Prop :=
  dtPendingInv st ∧ (st.paused = true → st.pending = []) ∧
  st.fires.length ≤ 1 ∧ (st.fires ≠ [] → st.pending = [] ∧ st.paused = false)

/-- Operation sequences in which pauseDeadlineTimer is never invoked
after the expiry callback has fired. -/
def npaf : List DTOp → Prop
  | [] => True
  | op :: rest =>
    (match op with
     | DTOp.fireOp _ => ∀ o ∈ rest, o ≠ DTOp.pauseOp
     | _ => True) ∧ npaf rest

lemma cancelled_state (st : DT) (h : dtPendingInv st) :
    (cancelDeadlineTimer st).handle = none ∧
    (cancelDeadlineTimer st).paused = false ∧
    (cancelDeadlineTimer st).pending = [] ∧
    (cancelDeadlineTimer st).fires = st.fires := by
  rcases hh : st.handle with _ | k
  · rcases h with hp | ⟨h0, t, hp, hsome⟩
    · simp [cancelDeadlineTimer, hh, hp]
    · rw [hh] at hsome; cases hsome
  · rcases h with hp | ⟨h0, t, hp, hsome⟩
    · simp [cancelDeadlineTimer, hh, hp, clearPending]
    · rw [hh] at hsome
      have : h0 = k := by cases hsome; rfl
      subst this
      simp [cancelDeadlineTimer, hh, hp, clearPending]

lemma dtRun_cancelled (ops : List DTOp) :
    ∀ st : DT, st.handle = none → st.paused = false → st.pending = [] →
    (dtRun st ops).fires = st.fires := by
  induction ops with
  | nil => intro st _ _ _; rfl
  | cons op rest ih =>
      intro st hh hp hpend
      have hstep : (dtStep st op).fires = st.fires ∧ (dtStep st op).handle = none ∧
          (dtStep st op).paused = false ∧ (dtStep st op).pending = [] := by
        cases op with
        | pauseOp => simp [dtStep, pauseDeadlineTimer, hh, hp, hpend]
        | resumeOp q => simp [dtStep, resumeDeadlineTimer, hp, hh, hpend]
        | cancelOp => simp [dtStep, cancelDeadlineTimer, hh, hp, hpend]
        | fireOp h => simp [dtStep, fireTimer, hpend, hh, hp]
      have := ih (dtStep st op) hstep.2.1 hstep.2.2.1 hstep.2.2.2
      calc (dtRun st (op :: rest)).fires = (dtRun (dtStep st op) rest).fires := rfl
        _ = (dtStep st op).fires := this
        _ = st.fires := hstep.1


lemma pause_fires (st : DT) : (pauseDeadlineTimer st).fires = st.fires := by
  rcases hh : st.handle with _ | k
  · simp [pauseDeadlineTimer, hh]
  · by_cases hp : st.paused <;> simp [pauseDeadlineTimer, hh, hp]

lemma resume_fires (st : DT) (q : ℚ) : (resumeDeadlineTimer st q).fires = st.fires := by
  by_cases hr : st.paused ∧ 0 < st.remaining <;> simp [resumeDeadlineTimer, hr]

lemma cancel_fires (st : DT) : (cancelDeadlineTimer st).fires = st.fires := by
  rcases hh : st.handle with _ | k <;> simp [cancelDeadlineTimer, hh]

lemma dtStep_good (st : DT) (op : DTOp) (hg : dtGood st)
    (hop : st.fires ≠ [] → op ≠ DTOp.pauseOp) :
    dtGood (dtStep st op) := by
  obtain ⟨hinv, hpp, hlen, hfp⟩ := hg
  cases op with
  | pauseOp =>
      have hfe : st.fires = [] := by
        by_contra hne
        exact (hop hne) rfl
      rcases hh : st.handle with _ | k
      · have hid : dtStep st DTOp.pauseOp = st := by
          simp [dtStep, pauseDeadlineTimer, hh]
        rw [hid]; exact ⟨hinv, hpp, hlen, hfp⟩
      · by_cases hpa : st.paused
        · have hid : dtStep st DTOp.pauseOp = st := by
            simp [dtStep, pauseDeadlineTimer, hh, hpa]
          rw [hid]; exact ⟨hinv, hpp, hlen, hfp⟩
        · have hpend2 : clearPending st.pending k = [] := by
            rcases hinv with hp0 | ⟨h0, t, hp0, hsome⟩
            · simp [hp0, clearPending]
            · rw [hh] at hsome
              have : h0 = k := by cases hsome; rfl
              subst this
              simp [hp0, clearPending]
          refine ⟨?_, ?_, ?_, ?_⟩ <;>
            simp [dtStep, pauseDeadlineTimer, hh, hpa, hpend2, hfe, dtPendingInv]
  | resumeOp q =>
      by_cases hr : st.paused ∧ 0 < st.remaining
      · have hfe : st.fires = [] := by
          by_contra hne
          exact absurd (hfp hne).2 (by simp [hr.1])
        have hpend0 : st.pending = [] := hpp hr.1
        refine ⟨?_, ?_, ?_, ?_⟩ <;>
          simp [dtStep, resumeDeadlineTimer, hr, hpend0, hfe, dtPendingInv]
      · have hid : dtStep st (DTOp.resumeOp q) = st := by
          simp [dtStep, resumeDeadlineTimer, hr]
        rw [hid]; exact ⟨hinv, hpp, hlen, hfp⟩
  | cancelOp =>
      have hc := cancelled_state st hinv
      refine ⟨Or.inl hc.2.2.1, fun _ => hc.2.2.1, ?_, fun _ => ⟨hc.2.2.1, hc.2.1⟩⟩
      rw [show (dtStep st DTOp.cancelOp).fires = st.fires from cancel_fires st]
      exact hlen
  | fireOp h =>
      rcases hf : st.pending.find? (fun p => p.1 == h) with _ | p
      · have hid : dtStep st (DTOp.fireOp h) = st := by
          simp [dtStep, fireTimer, hf]
        rw [hid]; exact ⟨hinv, hpp, hlen, hfp⟩
      · have hpend_ne : st.pending ≠ [] := by
          intro h0
          rw [h0] at hf
          simp [List.find?] at hf
        have hfe : st.fires = [] := by
          by_contra hne
          exact hpend_ne (hfp hne).1
        rcases hinv with hp0 | ⟨h0, t, hp0, _⟩
        · exact absurd hp0 hpend_ne
        · have hpa : st.paused = false := by
            rcases hb : st.paused with _ | _
            · rfl
            · exact absurd (hpp hb) hpend_ne
          have hh0 : h0 = h := by
            rcases hbe : (h0 == h) with _ | _
            · rw [hp0] at hf
              simp [List.find?, hbe] at hf
            · exact beq_iff_eq.mp hbe
          subst hh0
          have hclear : clearPending st.pending h0 = [] := by
            simp [hp0, clearPending]
          refine ⟨?_, ?_, ?_, ?_⟩ <;>
            simp [dtStep, fireTimer, hf, hclear, hfe, hpa, dtPendingInv]

lemma dtRun_good (ops : List DTOp) :
    ∀ st : DT, dtGood st → npaf ops →
    (st.fires ≠ [] → ∀ o ∈ ops, o ≠ DTOp.pauseOp) →
    dtGood (dtRun st ops) := by
  induction ops with
  | nil => intro st hg _ _; exact hg
  | cons op rest ih =>
      intro st hg hn hside
      have hop : st.fires ≠ [] → op ≠ DTOp.pauseOp := fun hne =>
        hside hne op (List.mem_cons_self _ _)
      have hg2 := dtStep_good st op hg hop
      have hn2 : npaf rest := by
        cases op with
        | fireOp k =>
            have h2 : (∀ o ∈ rest, o ≠ DTOp.pauseOp) ∧ npaf rest := by
              simpa [npaf] using hn
            exact h2.2
        | pauseOp => simpa [npaf] using hn
        | resumeOp q => simpa [npaf] using hn
        | cancelOp => simpa [npaf] using hn
      have hside2 : (dtStep st op).fires ≠ [] → ∀ o ∈ rest, o ≠ DTOp.pauseOp := by
        cases op with
        | pauseOp =>
            rw [show (dtStep st DTOp.pauseOp).fires = st.fires from pause_fires st]
            exact fun hne o ho => hside hne o (List.mem_cons_of_mem _ ho)
        | resumeOp q =>
            rw [show (dtStep st (DTOp.resumeOp q)).fires = st.fires from resume_fires st q]
            exact fun hne o ho => hside hne o (List.mem_cons_of_mem _ ho)
        | cancelOp =>
            rw [show (dtStep st DTOp.cancelOp).fires = st.fires from cancel_fires st]
            exact fun hne o ho => hside hne o (List.mem_cons_of_mem _ ho)
        | fireOp k =>
            intro _
            have h2 : (∀ o ∈ rest, o ≠ DTOp.pauseOp) ∧ npaf rest := by
              simpa [npaf] using hn
            exact h2.1
      exact ih (dtStep st op) hg2 hn2 hside2

/-- C4 amended: after cancelDeadlineTimer the expiry callback never
fires again, whatever sequence of pause/resume/fire events follows — in
particular a later resume is a no-op because cancel zeroes the frozen
remaining time and clears the paused flag.  The callback also fires at
most once per started timer along any operation sequence in which
pauseDeadlineTimer is not invoked after the callback has already fired.
Without that proviso at-most-once fails (see the counterexample):
pausing after expiry sees the stale non-null handle, enters the Paused
state, and a resume then re-arms the timer for a second delivery. -/
theorem C4_theorem :
    (∀ st : DT, dtPendingInv st → ∀ ops : List DTOp,
        (dtRun (cancelDeadlineTimer st) ops).fires = st.fires) ∧
    (∀ T s : ℚ, ∀ ops : List DTOp, npaf ops →
        (dtRun (startDeadlineTimer dtInit T s) ops).fires.length ≤ 1) := by
  constructor
  · intro st hinv ops
    have hc := cancelled_state st hinv
    rw [dtRun_cancelled ops (cancelDeadlineTimer st) hc.1 hc.2.1 hc.2.2.1]
    exact hc.2.2.2
  · intro T s ops hn
    have hg : dtGood (startDeadlineTimer dtInit T s) := by
      refine ⟨Or.inr ⟨1, s + T, rfl, rfl⟩, ?_, ?_, ?_⟩ <;>
        simp [startDeadlineTimer, dtInit]
    exact (dtRun_good ops _ hg hn (fun hne => absurd rfl hne)).2.2.1

/-- C4 witness: the amended cancel-safety and conditional at-most-once
properties instantiated at concrete operation sequences. -/
theorem C4_theorem_witness :
    (dtRun (cancelDeadlineTimer dtInit) [DTOp.resumeOp 5, DTOp.fireOp 1]).fires
      = dtInit.fires ∧
    (dtRun (startDeadlineTimer dtInit 10 0) [DTOp.fireOp 1, DTOp.fireOp 1]).fires.length ≤ 1 :=
  ⟨C4_theorem.1 dtInit (Or.inl rfl) [DTOp.resumeOp 5, DTOp.fireOp 1],
   C4_theorem.2 10 0 [DTOp.fireOp 1, DTOp.fireOp 1] (by simp [npaf])⟩

/-! ### GameplayManager state and operations

Shallow embedding of the wave-coordination state of GameplayManager.
Crops and crows are identified by Nat ids.  `cropsWithCrows` is the
crop-to-crow-set map (a JS Map of JS Sets: an association list of
duplicate-free lists); `crowTarget` models the per-crow targetCrop
field; `crowTimer` models each crow deadline timer by its phase and the
stored remaining time.  Random picks of findRandomCrop are modelled by
an index seed k: the source picks uniformly from the filtered list, the
model picks element k mod length; theorems quantify over all seeds. -/

inductive TimerSt where
  | running : ℚ → TimerSt
  | pausedT : ℚ → TimerSt
  | expired : TimerSt
  | cancelled : TimerSt
deriving DecidableEq

structure GM where
  spawnedCrops : List Nat
  cropsWithCrows : List (Nat × List Nat)
  activeCrows : List Nat
  pausedCrows : List Nat
  crowTarget : List (Nat × Nat)
  crowTimer : List (Nat × TimerSt)
  totalCrowsToSpawn : Nat
  crowsSpawned : Nat
  waveActive : Bool
  gameStarted : Bool
  waveTimeoutTimer : Bool
  currentWaveIndex : Nat
  wavesCount : Nat
  destroyedBirds : Nat
  nextCrowId : Nat
  hasSpawners : Bool
  cascade : Bool
  pendingReset : Bool
deriving DecidableEq

def alookup {β : Type} : List (Nat × β) → Nat → Option β
  | [], _ => none
  | (k, v) :: rest, x => if k = x then some v else alookup rest x

def aset {β : Type} : List (Nat × β) → Nat → β → List (Nat × β)
  | [], k, v => [(k, v)]
  | (k0, v0) :: rest, k, v =>
      if k0 = k then (k0, v) :: rest else (k0, v0) :: aset rest k v

/-- GameplayManager.findRandomCrop considers a crop empty when it has no
tracking set yet or its set has size 0. -/
def cropIsEmpty (st : GM) (c : Nat) : Bool :=
  match alookup st.cropsWithCrows c with
  | none => true
  | some s => s.isEmpty

/-- The crops findRandomCrop can return: live crops whose tracking set
is empty. -/
def emptyCrops (st : GM) : List Nat :=
  st.spawnedCrops.filter (cropIsEmpty st)

/-- GameplayManager.findRandomCrop with the uniform pick replaced by the
index seed k. -/
def findRandomCrop (st : GM) (k : Nat) : Option Nat :=
  (emptyCrops st).get? (k % (emptyCrops st).length)

/-- Adding a crow to the tracking set of a crop, creating the entry
first when absent, as spawnBird and tryAssignPausedCrows do; the JS Set
ignores a duplicate add. -/
def addCrowToCrop (m : List (Nat × List Nat)) (c w : Nat) : List (Nat × List Nat) :=
  match alookup m c with
  | some s => aset m c (if w ∈ s then s else s ++ [w])
  | none => m ++ [(c, [w])]

/-- The onActorEntered handler installed by setupCropInteraction: adds
the entering crow to the set of that crop unconditionally (the handler
only exists for crops whose tracking entry was initialised). -/
def triggerEnter (st : GM) (c w : Nat) : GM :=
  match alookup st.cropsWithCrows c with
  | some s =>
      { st with cropsWithCrows := aset st.cropsWithCrows c (if w ∈ s then s else s ++ [w]) }
  | none => st

/-- The onActorExited handler: removes the exiting crow from the set of
that crop. -/
def triggerExit (st : GM) (c w : Nat) : GM :=
  match alookup st.cropsWithCrows c with
  | some s => { st with cropsWithCrows := aset st.cropsWithCrows c (s.filter (· ≠ w)) }
  | none => st

/-- GameplayManager.destroyCrow: cancel the deadline timer, remove the
crow from activeCrows, pausedCrows and every crop tracking set, count
the destruction, destroy the actor. -/
def destroyCrow (st : GM) (w : Nat) : GM :=
  { st with
    crowTimer := aset st.crowTimer w TimerSt.cancelled,
    activeCrows := st.activeCrows.filter (· ≠ w),
    pausedCrows := st.pausedCrows.filter (· ≠ w),
    cropsWithCrows := st.cropsWithCrows.map (fun p => (p.1, p.2.filter (· ≠ w))),
    destroyedBirds := st.destroyedBirds + 1 }

/-- GameplayManager.checkWaveComplete.  The source tests
crowsSpawnedThisWave >= totalCrowsToSpawn (not equality), both crow
lists empty and the wave still active; on completion it deactivates the
wave, advances the wave index and clears the wave-timeout timer, then
either destroys the crops and schedules the next wave or — after the
final wave — only shows the win message. -/
def checkWaveComplete (st : GM) : GM :=
  if st.totalCrowsToSpawn ≤ st.crowsSpawned ∧ st.activeCrows = [] ∧
      st.pausedCrows = [] ∧ st.waveActive = true then
    if st.currentWaveIndex + 1 < st.wavesCount then
      { st with waveActive := false, currentWaveIndex := st.currentWaveIndex + 1,
                waveTimeoutTimer := false, spawnedCrops := [] }
    else
      { st with waveActive := false, currentWaveIndex := st.currentWaveIndex + 1,
                waveTimeoutTimer := false }
  else st

/-- The completion predicate of the source, in isolation. -/
def completionHolds (st : GM) : Prop :=
  st.totalCrowsToSpawn ≤ st.crowsSpawned ∧ st.activeCrows = [] ∧ st.pausedCrows = []

instance (st : GM) : Decidable (completionHolds st) := by
  unfold completionHolds; infer_instance

/-- One iteration body of the tryAssignPausedCrows loop: set the target,
resume the deadline timer (only acts on a paused timer with positive
remaining time), track the crow on the crop, splice it out of
pausedCrows. -/
def assignOne (st : GM) (w c : Nat) : GM :=
  { st with
    crowTarget := aset st.crowTarget w c,
    crowTimer :=
      match alookup st.crowTimer w with
      | some (TimerSt.pausedT r) =>
          if 0 < r then aset st.crowTimer w (TimerSt.running r) else st.crowTimer
      | _ => st.crowTimer,
    cropsWithCrows := addCrowToCrop st.cropsWithCrows c w,
    pausedCrows := st.pausedCrows.filter (· ≠ w) }

/-- The for-of loop of tryAssignPausedCrows over the snapshot of
pausedCrows: assign each crow a fresh findRandomCrop pick, breaking at
the first failure.  ks i is the pick seed of iteration i. -/
def tryAssignLoop (st : GM) : List Nat → (Nat → Nat) → Nat → GM
  | [], _, _ => st
  | w :: rest, ks, i =>
      match findRandomCrop st (ks i) with
      | some c => tryAssignLoop (assignOne st w c) rest ks (i + 1)
      | none => st

/-- GameplayManager.tryAssignPausedCrows: no-op when no crow is paused
or no crop is free, otherwise the promotion loop. -/
def tryAssignPausedCrows (st : GM) (ks : Nat → Nat) : GM :=
  if st.pausedCrows = [] then st
  else if (findRandomCrop st (ks 0)).isSome then tryAssignLoop st st.pausedCrows ks 1
  else st

/-- GameplayManager.handleCropClick: with no crows on the crop the click
is invalid and nothing happens; otherwise every crow in the snapshot of
the set of this crop is destroyed, paused crows are promoted, and wave
completion is checked. -/
def handleCropClick (st : GM) (c : Nat) (ks : Nat → Nat) : GM :=
  match alookup st.cropsWithCrows c with
  | some s =>
      if s = [] then st
      else checkWaveComplete (tryAssignPausedCrows (s.foldl destroyCrow st) ks)
  | none => st

/-- A user click reaches handleCropClick only while the game and wave
are active and only through the raycast loop over spawnedCrops. -/
def clickStep (st : GM) (c : Nat) (ks : Nat → Nat) : GM :=
  if st.gameStarted = true ∧ st.waveActive = true ∧ c ∈ st.spawnedCrops then
    handleCropClick st c ks
  else st

/-- GameplayManager.spawnBird followed by the crowsSpawnedThisWave
increment of the scheduling callback.  With no spawner in the scene the
spawn silently no-ops but the counter still increments.  Otherwise the
new crow starts its deadline timer with duration D; if findRandomCrop
yields a crop the crow targets it and is tracked on it, else the timer
is immediately paused and the crow joins pausedCrows; either way it is
appended to activeCrows. -/
def spawnStep (st : GM) (k : Nat) (D : ℚ) : GM :=
  if st.hasSpawners = false then { st with crowsSpawned := st.crowsSpawned + 1 }
  else
    let w := st.nextCrowId
    match findRandomCrop st k with
    | some c =>
        { st with
          crowTimer := aset st.crowTimer w (TimerSt.running D),
          crowTarget := aset st.crowTarget w c,
          cropsWithCrows := addCrowToCrop st.cropsWithCrows c w,
          activeCrows := st.activeCrows ++ [w],
          nextCrowId := w + 1,
          crowsSpawned := st.crowsSpawned + 1 }
    | none =>
        { st with
          crowTimer := aset st.crowTimer w (TimerSt.pausedT D),
          pausedCrows := st.pausedCrows ++ [w],
          activeCrows := st.activeCrows ++ [w],
          nextCrowId := w + 1,
          crowsSpawned := st.crowsSpawned + 1 }

/-- GameplayManager.handleCrowDeadline: destroy the target crop; when
that empties the crop pool, start the all-crops-eaten cascade and keep
the crow alive (no completion check on this path); otherwise destroy
the crow and check completion.  A crow with no target is just destroyed
and completion checked. -/
def handleCrowDeadline (st : GM) (w : Nat) : GM :=
  match alookup st.crowTarget w with
  | some t =>
      let st1 := { st with
        spawnedCrops := st.spawnedCrops.filter (· ≠ t),
        cropsWithCrows := st.cropsWithCrows.filter (fun p => p.1 ≠ t) }
      if st1.spawnedCrops = [] then { st1 with cascade := true }
      else checkWaveComplete (destroyCrow st1 w)
  | none => checkWaveComplete (destroyCrow st w)

/-- A deadline timer can deliver its expiry only while Running; the
delivery marks it expired and runs handleCrowDeadline. -/
def expireStep (st : GM) (w : Nat) : GM :=
  match alookup st.crowTimer w with
  | some (TimerSt.running _) =>
      handleCrowDeadline { st with crowTimer := aset st.crowTimer w TimerSt.expired } w
  | _ => st

/-- GameplayManager.handleWaveTimeout: destroys every active and paused
crow (Actor.destroy cancels each deadline timer via doEndPlay), empties
both lists, and schedules resetGame after the message delay.  It does
not clean the crop tracking sets. -/
def timeoutStep (st : GM) : GM :=
  if st.waveTimeoutTimer = true then
    { st with
      crowTimer := (st.activeCrows ++ st.pausedCrows).foldl
        (fun m w => aset m w TimerSt.cancelled) st.crowTimer,
      activeCrows := [], pausedCrows := [],
      waveTimeoutTimer := false,
      pendingReset := true }
  else st

/-- GameplayManager.resetGame: clears both scheduled timers, destroys
all crops, clears the crop tracking map, resets wave index, flags,
spawn counters and both UI counters.  It does not touch activeCrows or
pausedCrows (its callers have already emptied them). -/
def resetGame (st : GM) : GM :=
  { st with
    waveTimeoutTimer := false, cascade := false, pendingReset := false,
    spawnedCrops := [], cropsWithCrows := [],
    currentWaveIndex := 0, gameStarted := false, waveActive := false,
    totalCrowsToSpawn := 0, crowsSpawned := 0, destroyedBirds := 0 }

/-- The scheduled resetGame call firing after a timeout or cascade. -/
def resetStep (st : GM) : GM :=
  if st.pendingReset = true then resetGame st else st

/-- The events that can mutate the wave state. -/
inductive Ev where
  | spawn : Nat → ℚ → Ev
  | click : Nat → (Nat → Nat) → Ev
  | enter : Nat → Nat → Ev
  | exitZone : Nat → Nat → Ev
  | expire : Nat → Ev
  | timeout : Ev
  | reset : Ev

def Ev.isEnd : Ev → Bool
  | Ev.timeout => true
  | Ev.reset => true
  | _ => false

def execEv (st : GM) : Ev → GM
  | Ev.spawn k D => spawnStep st k D
  | Ev.click c ks => clickStep st c ks
  | Ev.enter c w => triggerEnter st c w
  | Ev.exitZone c w => triggerExit st c w
  | Ev.expire w => expireStep st w
  | Ev.timeout => timeoutStep st
  | Ev.reset => resetStep st

def runEv (st : GM) (evs : List Ev) : GM := evs.foldl execEv st

/-- The state of the manager before the first wave of a game. -/
def initialGM : GM :=
  { spawnedCrops := [], cropsWithCrows := [], activeCrows := [], pausedCrows := [],
    crowTarget := [], crowTimer := [], totalCrowsToSpawn := 0, crowsSpawned := 0,
    waveActive := false, gameStarted := false, waveTimeoutTimer := false,
    currentWaveIndex := 0, wavesCount := 3, destroyedBirds := 0, nextCrowId := 0,
    hasSpawners := true, cascade := false, pendingReset := false }

/-- startNextWave after spawnCropsAtMarkers resolved with the given crop
list: the wave becomes active, setupCropInteraction initialises an empty
tracking set per crop, spawnBirdsOverTime resets the spawn counters to
the planned crow count, and the wave-timeout timer is started. -/
def waveStart (st : GM) (crops : List Nat) (n : Nat) : GM :=
  { st with gameStarted := true, waveActive := true,
            spawnedCrops := crops,
            cropsWithCrows := crops.map (fun c => (c, [])),
            totalCrowsToSpawn := n, crowsSpawned := 0,
            waveTimeoutTimer := true }

/-! ### Helper lemmas on the association lists and the step functions -/

lemma mem_aset {β : Type} (m : List (Nat × β)) (k : Nat) (v : β) :
    ∀ p ∈ aset m k v, p = (k, v) ∨ p ∈ m := by
  induction m with
  | nil =>
      intro p hp
      simp [aset] at hp
      exact Or.inl hp
  | cons q rest ih =>
      intro p hp
      by_cases hk : q.1 = k
      · rw [show aset (q :: rest) k v = (q.1, v) :: rest by
            rw [aset.eq_def]; simp [hk]] at hp
        rcases List.mem_cons.mp hp with h | h
        · exact Or.inl (by rw [h, hk])
        · exact Or.inr (List.mem_cons_of_mem _ h)
      · rw [show aset (q :: rest) k v = q :: aset rest k v by
            rw [aset.eq_def]; simp [hk]] at hp
        rcases List.mem_cons.mp hp with h | h
        · exact Or.inr (by rw [h]; exact List.mem_cons_self _ _)
        · rcases ih p h with h2 | h2
          · exact Or.inl h2
          · exact Or.inr (List.mem_cons_of_mem _ h2)

lemma alookup_aset_self {β : Type} (m : List (Nat × β)) (k : Nat) (v : β) :
    alookup (aset m k v) k = some v := by
  induction m with
  | nil => simp [aset, alookup]
  | cons q rest ih =>
      by_cases hk : q.1 = k
      · rw [show aset (q :: rest) k v = (q.1, v) :: rest by rw [aset.eq_def]; simp [hk]]
        simp [alookup, hk]
      · rw [show aset (q :: rest) k v = q :: aset rest k v by rw [aset.eq_def]; simp [hk]]
        simp [alookup, hk, ih]

lemma alookup_aset_other {β : Type} (m : List (Nat × β)) (k x : Nat) (v : β)
    (hx : x ≠ k) : alookup (aset m k v) x = alookup m x := by
  induction m with
  | nil =>
      simp only [aset, alookup]
      rw [if_neg (fun h => hx h.symm)]
  | cons q rest ih =>
      by_cases hk : q.1 = k
      · rw [show aset (q :: rest) k v = (q.1, v) :: rest by rw [aset.eq_def]; simp [hk]]
        have : q.1 ≠ x := by rw [hk]; exact fun h => hx h.symm
        simp [alookup, this]
      · rw [show aset (q :: rest) k v = q :: aset rest k v by rw [aset.eq_def]; simp [hk]]
        by_cases hq : q.1 = x <;> simp [alookup, hq, ih]

lemma alookup_mem {β : Type} : ∀ (m : List (Nat × β)) (c : Nat) (s : β),
    alookup m c = some s → (c, s) ∈ m := by
  intro m
  induction m with
  | nil => intro c s h; cases h
  | cons q rest ih =>
      obtain ⟨k, v⟩ := q
      intro c s h
      by_cases hq : k = c
      · rw [show alookup ((k, v) :: rest) c = some v by simp [alookup, hq]] at h
        injection h with h2
        subst h2
        subst hq
        exact List.mem_cons_self _ _
      · rw [show alookup ((k, v) :: rest) c = alookup rest c by simp [alookup, hq]] at h
        exact List.mem_cons_of_mem _ (ih c s h)

lemma foldl_preserve {α : Type} (P : GM → Prop) (f : GM → α → GM)
    (hf : ∀ st a, P st → P (f st a)) :
    ∀ l : List α, ∀ st : GM, P st → P (List.foldl f st l) := by
  intro l
  induction l with
  | nil => intro st h; exact h
  | cons a rest ih => intro st h; exact ih (f st a) (hf st a h)

lemma tryAssignLoop_preserve (P : GM → Prop)
    (h : ∀ st w c k, P st → findRandomCrop st k = some c → P (assignOne st w c)) :
    ∀ ws : List Nat, ∀ ks : Nat → Nat, ∀ i : Nat, ∀ st : GM,
      P st → P (tryAssignLoop st ws ks i) := by
  intro ws
  induction ws with
  | nil => intro ks i st hp; exact hp
  | cons w rest ih =>
      intro ks i st hp
      rcases hf : findRandomCrop st (ks i) with _ | c
      · rw [show tryAssignLoop st (w :: rest) ks i = st by
          rw [tryAssignLoop.eq_def]; simp [hf]]
        exact hp
      · rw [show tryAssignLoop st (w :: rest) ks i
            = tryAssignLoop (assignOne st w c) rest ks (i + 1) by
          rw [tryAssignLoop.eq_def]; simp [hf]]
        exact ih ks (i + 1) (assignOne st w c) (h st w c (ks i) hp hf)

lemma findRandomCrop_isEmpty (st : GM) (k c : Nat)
    (h : findRandomCrop st k = some c) :
    cropIsEmpty st c = true ∧ c ∈ st.spawnedCrops := by
  have hc : c ∈ emptyCrops st := List.get?_mem h
  have := List.mem_filter.mp hc
  exact ⟨this.2, this.1⟩

/-! ### C1: exclusivity of the crop assignment sets -/

/-- Every crop tracking set has size at most 1. -/
def exclusivity (st : GM) : Prop :=
  ∀ p ∈ st.cropsWithCrows, p.2.length ≤ 1

instance (st : GM) : Decidable (exclusivity st) := by
  unfold exclusivity; infer_instance

lemma excl_addCrowToCrop (m : List (Nat × List Nat)) (c w : Nat)
    (hm : ∀ p ∈ m, p.2.length ≤ 1)
    (hc : alookup m c = none ∨ alookup m c = some []) :
    ∀ p ∈ addCrowToCrop m c w, p.2.length ≤ 1 := by
  intro p hp
  rcases hl : alookup m c with _ | s
  · rw [show addCrowToCrop m c w = m ++ [(c, [w])] by
        rw [addCrowToCrop.eq_def]; simp [hl]] at hp
    rcases List.mem_append.mp hp with h | h
    · exact hm p h
    · rw [List.mem_singleton.mp h]; simp
  · have hs : s = [] := by
      rcases hc with h | h
      · rw [hl] at h; cases h
      · rw [hl] at h; cases h; rfl
    subst hs
    rw [show addCrowToCrop m c w = aset m c [w] by
        rw [addCrowToCrop.eq_def]; simp [hl]] at hp
    rcases mem_aset m c [w] p hp with h | h
    · rw [h]; simp
    · exact hm p h

lemma cropIsEmpty_lookup (st : GM) (c : Nat) (h : cropIsEmpty st c = true) :
    alookup st.cropsWithCrows c = none ∨ alookup st.cropsWithCrows c = some [] := by
  unfold cropIsEmpty at h
  rcases hl : alookup st.cropsWithCrows c with _ | s
  · exact Or.inl rfl
  · rw [hl] at h
    simp at h
    refine Or.inr ?_
    rw [h]

lemma excl_destroyCrow (st : GM) (w : Nat) (h : exclusivity st) :
    exclusivity (destroyCrow st w) := by
  intro p hp
  unfold destroyCrow at hp
  simp only at hp
  rcases List.mem_map.mp hp with ⟨q, hq, hpq⟩
  rw [← hpq]
  exact le_trans (List.length_filter_le _ _) (h q hq)

lemma excl_assignOne (st : GM) (w c : Nat) (k : Nat) (h : exclusivity st)
    (hf : findRandomCrop st k = some c) : exclusivity (assignOne st w c) := by
  have he := (findRandomCrop_isEmpty st k c hf).1
  intro p hp
  unfold assignOne at hp
  simp only at hp
  exact excl_addCrowToCrop st.cropsWithCrows c w h (cropIsEmpty_lookup st c he) p hp

lemma checkWaveComplete_crops (st : GM) :
    (checkWaveComplete st).cropsWithCrows = st.cropsWithCrows := by
  unfold checkWaveComplete
  split
  · split <;> rfl
  · rfl

lemma excl_checkWaveComplete (st : GM) (h : exclusivity st) :
    exclusivity (checkWaveComplete st) := by
  intro p hp
  rw [checkWaveComplete_crops] at hp
  exact h p hp

lemma excl_tryAssign (st : GM) (ks : Nat → Nat) (h : exclusivity st) :
    exclusivity (tryAssignPausedCrows st ks) := by
  unfold tryAssignPausedCrows
  split
  · exact h
  · split
    · exact tryAssignLoop_preserve exclusivity
        (fun st2 w c k h2 hf => excl_assignOne st2 w c k h2 hf)
        st.pausedCrows ks 1 st h
    · exact h

/-- C1 amended: assignment at spawn and promotion of a paused crow both
go through findRandomCrop, which only returns crops whose tracking set
is empty, so the spawn step, the clear/promotion step, the expiry step,
trigger-zone exit, the wave timeout and the reset all preserve the
invariant that every tracking set of a crop has size at most 1.
Trigger-zone entry is the exception: it adds the entering crow to the
set of that crop unconditionally, so a crow flying through the zone of
an occupied crop raises that set to size 2 (see the counterexample);
the set representation is defensive there, exactly as the data-model
section of the spec concedes. -/
theorem C1_theorem (st : GM) (h : exclusivity st) :
    (∀ k : Nat, ∀ D : ℚ, exclusivity (spawnStep st k D)) ∧
    (∀ c : Nat, ∀ ks : Nat → Nat, exclusivity (clickStep st c ks)) ∧
    (∀ w : Nat, exclusivity (expireStep st w)) ∧
    (∀ c w : Nat, exclusivity (triggerExit st c w)) ∧
    exclusivity (timeoutStep st) ∧
    exclusivity (resetGame st) := by
  refine ⟨?_, ?_, ?_, ?_, ?_, ?_⟩
  · intro k D
    unfold spawnStep
    split
    · exact h
    · rcases hf : findRandomCrop st k with _ | c
      · simp only [hf]
        intro p hp
        exact h p hp
      · simp only [hf]
        intro p hp
        exact excl_addCrowToCrop st.cropsWithCrows c st.nextCrowId h
          (cropIsEmpty_lookup st c (findRandomCrop_isEmpty st k c hf).1) p hp
  · intro c ks
    unfold clickStep
    split
    · unfold handleCropClick
      rcases hl : alookup st.cropsWithCrows c with _ | s
      · exact h
      · simp only
        split
        · exact h
        · exact excl_checkWaveComplete _ (excl_tryAssign _ ks
            (foldl_preserve exclusivity destroyCrow
              (fun st2 w h2 => excl_destroyCrow st2 w h2) s st h))
    · exact h
  · intro w
    unfold expireStep
    rcases ht : alookup st.crowTimer w with _ | ts
    · exact h
    · rcases ts with r | r | _ | _
      · simp only
        unfold handleCrowDeadline
        rcases hl : alookup st.crowTarget w with _ | t
        · simp only
          refine excl_checkWaveComplete _ (excl_destroyCrow _ w ?_)
          intro p hp
          exact h p hp
        · simp only
          split
          · intro p hp
            simp only at hp
            rcases List.mem_filter.mp hp with ⟨hmem, _⟩
            exact h p hmem
          · refine excl_checkWaveComplete _ (excl_destroyCrow _ w ?_)
            intro p hp
            simp only at hp
            rcases List.mem_filter.mp hp with ⟨hmem, _⟩
            exact h p hmem
      · exact h
      · exact h
      · exact h
  · intro c w
    unfold triggerExit
    rcases hl : alookup st.cropsWithCrows c with _ | s
    · exact h
    · simp only
      intro p hp
      rcases mem_aset st.cropsWithCrows c (s.filter (· ≠ w)) p hp with h2 | h2
      · rw [h2]
        exact le_trans (List.length_filter_le _ _)
          (h (c, s) (alookup_mem st.cropsWithCrows c s hl))
      · exact h p h2
  · unfold timeoutStep
    split
    · intro p hp
      exact h p hp
    · exact h
  · intro p hp
    simp [resetGame] at hp

/-- C1 counterexample: with two crops 10 and 11 and two crows spawned
(the first assigned crop 10, the second crop 11 — findRandomCrop keeps
the sets at size 1), the second crow physically entering the trigger
zone of crop 10 is added to its set unconditionally, giving the set
[0, 1] of size 2: trigger-zone entry does not preserve the claimed
at-most-one invariant. -/
theorem C1_counterexample :
    exclusivity (spawnStep (spawnStep (waveStart initialGM [10, 11] 2) 0 10) 0 10) ∧
    alookup (triggerEnter
        (spawnStep (spawnStep (waveStart initialGM [10, 11] 2) 0 10) 0 10)
        10 1).cropsWithCrows 10 = some [0, 1] ∧
    ¬ exclusivity (triggerEnter
        (spawnStep (spawnStep (waveStart initialGM [10, 11] 2) 0 10) 0 10) 10 1) := by
  refine ⟨by decide, by decide, by decide⟩

/-- C1 witness: the preservation theorem applied to the two-crop state
in which both crows are assigned, with one concrete step of each kind. -/
theorem C1_theorem_witness :
    exclusivity (spawnStep (spawnStep (spawnStep (waveStart initialGM [10, 11] 2) 0 10) 0 10) 0 10) ∧
    exclusivity (clickStep (spawnStep (spawnStep (waveStart initialGM [10, 11] 2) 0 10) 0 10) 10 (fun _ => 0)) := by
  have h : exclusivity (spawnStep (spawnStep (waveStart initialGM [10, 11] 2) 0 10) 0 10) := by
    decide
  exact ⟨(C1_theorem _ h).1 0 10, (C1_theorem _ h).2.1 10 (fun _ => 0)⟩

/-! ### C10: paused crows are a subset of the active list -/

/-- Every crow in pausedCrows is also tracked in activeCrows. -/
def pausedSubsetActive (st : GM) : Prop :=
  ∀ w ∈ st.pausedCrows, w ∈ st.activeCrows

instance (st : GM) : Decidable (pausedSubsetActive st) := by
  unfold pausedSubsetActive; infer_instance

lemma psa_destroyCrow (st : GM) (w : Nat) (h : pausedSubsetActive st) :
    pausedSubsetActive (destroyCrow st w) := by
  intro x hx
  unfold destroyCrow at hx ⊢
  simp only [List.mem_filter] at hx ⊢
  exact ⟨h x hx.1, hx.2⟩

lemma psa_assignOne (st : GM) (w c : Nat) (h : pausedSubsetActive st) :
    pausedSubsetActive (assignOne st w c) := by
  intro x hx
  unfold assignOne at hx ⊢
  simp only [List.mem_filter] at hx
  exact h x hx.1

lemma checkWaveComplete_lists (st : GM) :
    (checkWaveComplete st).activeCrows = st.activeCrows ∧
    (checkWaveComplete st).pausedCrows = st.pausedCrows := by
  unfold checkWaveComplete
  split
  · split <;> exact ⟨rfl, rfl⟩
  · exact ⟨rfl, rfl⟩

lemma psa_checkWaveComplete (st : GM) (h : pausedSubsetActive st) :
    pausedSubsetActive (checkWaveComplete st) := by
  intro x hx
  rw [(checkWaveComplete_lists st).1]
  rw [(checkWaveComplete_lists st).2] at hx
  exact h x hx

lemma psa_tryAssign (st : GM) (ks : Nat → Nat) (h : pausedSubsetActive st) :
    pausedSubsetActive (tryAssignPausedCrows st ks) := by
  unfold tryAssignPausedCrows
  split
  · exact h
  · split
    · exact tryAssignLoop_preserve pausedSubsetActive
        (fun st2 w c _ h2 _ => psa_assignOne st2 w c h2) st.pausedCrows ks 1 st h
    · exact h

lemma psa_clickStep (st : GM) (c : Nat) (ks : Nat → Nat) (h : pausedSubsetActive st) :
    pausedSubsetActive (clickStep st c ks) := by
  unfold clickStep
  split
  · unfold handleCropClick
    rcases hl : alookup st.cropsWithCrows c with _ | s
    · exact h
    · simp only
      split
      · exact h
      · exact psa_checkWaveComplete _ (psa_tryAssign _ ks
          (foldl_preserve pausedSubsetActive destroyCrow
            (fun st2 w h2 => psa_destroyCrow st2 w h2) s st h))
  · exact h

lemma psa_expireStep (st : GM) (w : Nat) (h : pausedSubsetActive st) :
    pausedSubsetActive (expireStep st w) := by
  unfold expireStep
  rcases ht : alookup st.crowTimer w with _ | ts
  · exact h
  · rcases ts with r | r | _ | _
    · simp only
      unfold handleCrowDeadline
      rcases hl : alookup _ w with _ | t
      · simp only
        exact psa_checkWaveComplete _ (psa_destroyCrow _ w (fun x hx => h x hx))
      · simp only
        split
        · exact fun x hx => h x hx
        · exact psa_checkWaveComplete _ (psa_destroyCrow _ w (fun x hx => h x hx))
    · exact h
    · exact h
    · exact h

/-- C10: paused crows are always a subset of the active list.  Every
event of the wave preserves the inclusion; with a spawner present every
spawned crow — paused or assigned — is appended to activeCrows; and
destroyCrow removes the crow from activeCrows, from pausedCrows and
from every crop tracking set. -/
theorem C10_theorem (st : GM) (h : pausedSubsetActive st) :
    (∀ e : Ev, pausedSubsetActive (execEv st e)) ∧
    (∀ k : Nat, ∀ D : ℚ, st.hasSpawners = true →
        (spawnStep st k D).activeCrows = st.activeCrows ++ [st.nextCrowId]) ∧
    (∀ w : Nat, w ∉ (destroyCrow st w).activeCrows ∧
        w ∉ (destroyCrow st w).pausedCrows ∧
        ∀ p ∈ (destroyCrow st w).cropsWithCrows, w ∉ p.2) := by
  refine ⟨?_, ?_, ?_⟩
  · intro e
    cases e with
    | spawn k D =>
        show pausedSubsetActive (spawnStep st k D)
        unfold spawnStep
        split
        · exact h
        · rcases hf : findRandomCrop st k with _ | c <;> simp only
          · intro x hx
            simp only [List.mem_append] at hx ⊢
            rcases hx with hx | hx
            · exact Or.inl (h x hx)
            · exact Or.inr hx
          · intro x hx
            simp only [List.mem_append]
            exact Or.inl (h x hx)
    | click c ks => exact psa_clickStep st c ks h
    | enter c w =>
        show pausedSubsetActive (triggerEnter st c w)
        unfold triggerEnter
        rcases hl : alookup st.cropsWithCrows c with _ | s
        · exact h
        · exact fun x hx => h x hx
    | exitZone c w =>
        show pausedSubsetActive (triggerExit st c w)
        unfold triggerExit
        rcases hl : alookup st.cropsWithCrows c with _ | s
        · exact h
        · exact fun x hx => h x hx
    | expire w => exact psa_expireStep st w h
    | timeout =>
        show pausedSubsetActive (timeoutStep st)
        unfold timeoutStep
        split
        · intro x hx
          simp at hx
        · exact h
    | reset =>
        show pausedSubsetActive (resetStep st)
        unfold resetStep
        split
        · exact fun x hx => h x hx
        · exact h
  · intro k D h2
    unfold spawnStep
    rw [if_neg (by rw [h2]; exact fun hc => Bool.noConfusion hc)]
    rcases hf : findRandomCrop st k with _ | c <;> rfl
  · intro w
    refine ⟨?_, ?_, ?_⟩
    · unfold destroyCrow
      simp [List.mem_filter]
    · unfold destroyCrow
      simp [List.mem_filter]
    · intro p hp
      unfold destroyCrow at hp
      simp only at hp
      rcases List.mem_map.mp hp with ⟨q, _, hpq⟩
      rw [← hpq]
      simp [List.mem_filter]

/-- The wave state with one crop, crow 0 assigned to it and crows 1 and
2 paused: three spawns into a one-crop wave. -/
def stC10 : GM :=
  spawnStep (spawnStep (spawnStep (waveStart initialGM [10] 3) 0 10) 0 10) 0 10

/-- C10 witness: the invariant theorem applied to the state with one
crop and three crows of which two are paused, stepping it by a click on
the crop, by a fourth spawn, and by destroying the paused crow 1. -/
theorem C10_theorem_witness :
    pausedSubsetActive (execEv stC10 (Ev.click 10 (fun _ => 0))) ∧
    (spawnStep stC10 0 10).activeCrows = stC10.activeCrows ++ [stC10.nextCrowId] ∧
    1 ∉ (destroyCrow stC10 1).activeCrows ∧
    1 ∉ (destroyCrow stC10 1).pausedCrows :=
  ⟨(C10_theorem stC10 (by decide)).1 (Ev.click 10 (fun _ => 0)),
   (C10_theorem stC10 (by decide)).2.1 0 10 rfl,
   ((C10_theorem stC10 (by decide)).2.2 1).1,
   ((C10_theorem stC10 (by decide)).2.2 1).2.1⟩

/-! ### C3: the completion predicate and when it is evaluated -/

/-- The state handleCrowDeadline has built just before it destroys the
expired crow: the timer is marked delivered and, when the crow had a
target, that crop is destroyed and dropped from the tracking map. -/
def expireIntermediate (st : GM) (w : Nat) : GM :=
  match alookup st.crowTarget w with
  | some t =>
      { st with
        crowTimer := aset st.crowTimer w TimerSt.expired,
        spawnedCrops := st.spawnedCrops.filter (· ≠ t),
        cropsWithCrows := st.cropsWithCrows.filter (fun p => p.1 ≠ t) }
  | none => { st with crowTimer := aset st.crowTimer w TimerSt.expired }

/-- C3 amended: the wave transitions to Complete exactly when
crowsSpawned is at least (not exactly equal to) totalCrowsToSpawn, the
active and paused crow lists are both empty and the wave is still
active; on that transition the wave-timeout timer is cancelled.  The
predicate is evaluated at the end of every occupied clear and of every
expiry that leaves at least one crop alive (an expiry that eats the
last crop defers to the all-crops-eaten cascade instead, with the crow
still active the predicate is false there anyway).  The source tests
with >=, which differs from the equality the claim states only when
totalCrowsToSpawn = 0, where the generator still schedules one spawn
(see the counterexample). -/
theorem C3_theorem (st : GM) :
    ((((checkWaveComplete st).waveActive = false ∧ st.waveActive = true) ↔
        (completionHolds st ∧ st.waveActive = true))) ∧
    (completionHolds st → st.waveActive = true →
        (checkWaveComplete st).waveTimeoutTimer = false) ∧
    (∀ c : Nat, ∀ ks : Nat → Nat, ∀ s : List Nat,
        st.gameStarted = true → st.waveActive = true → c ∈ st.spawnedCrops →
        alookup st.cropsWithCrows c = some s → s ≠ [] →
        clickStep st c ks
          = checkWaveComplete (tryAssignPausedCrows (s.foldl destroyCrow st) ks)) ∧
    (∀ w : Nat, ∀ r : ℚ, alookup st.crowTimer w = some (TimerSt.running r) →
        (∀ t, alookup st.crowTarget w = some t → st.spawnedCrops.filter (· ≠ t) ≠ []) →
        expireStep st w = checkWaveComplete (destroyCrow (expireIntermediate st w) w)) := by
  refine ⟨?_, ?_, ?_, ?_⟩
  · unfold checkWaveComplete
    by_cases hc : st.totalCrowsToSpawn ≤ st.crowsSpawned ∧ st.activeCrows = [] ∧
        st.pausedCrows = [] ∧ st.waveActive = true
    · rw [if_pos hc]
      constructor
      · intro _
        exact ⟨⟨hc.1, hc.2.1, hc.2.2.1⟩, hc.2.2.2⟩
      · intro _
        constructor
        · split <;> rfl
        · exact hc.2.2.2
    · rw [if_neg hc]
      constructor
      · intro ⟨hfalse, htrue⟩
        rw [htrue] at hfalse
        cases hfalse
      · intro ⟨⟨h1, h2, h3⟩, h4⟩
        exact absurd ⟨h1, h2, h3, h4⟩ hc
  · intro hcp hwa
    unfold checkWaveComplete
    rw [if_pos ⟨hcp.1, hcp.2.1, hcp.2.2, hwa⟩]
    split <;> rfl
  · intro c ks s hg hw hmem hl hs
    unfold clickStep
    rw [if_pos ⟨hg, hw, hmem⟩]
    unfold handleCropClick
    rw [hl]
    simp only
    rw [if_neg hs]
  · intro w r ht htarget
    unfold expireStep
    rw [ht]
    simp only
    unfold handleCrowDeadline
    simp only
    rcases hl : alookup st.crowTarget w with _ | t
    · rw [show expireIntermediate st w
          = { st with crowTimer := aset st.crowTimer w TimerSt.expired } by
        unfold expireIntermediate; rw [hl]]
    · have hne := htarget t hl
      dsimp only
      rw [if_neg hne]
      rw [show expireIntermediate st w
          = { st with
              crowTimer := aset st.crowTimer w TimerSt.expired,
              spawnedCrops := st.spawnedCrops.filter (· ≠ t),
              cropsWithCrows := st.cropsWithCrows.filter (fun p => p.1 ≠ t) } by
        unfold expireIntermediate; rw [hl]]

/-- C3 counterexample: a wave configured with birdCount = 0 still
spawns one crow (the unconditional first timetable entry); clearing
that crow completes the wave because the source tests
crowsSpawned >= totalCrowsToSpawn, although the spawned count 1 does
not equal the planned count 0 — refuting the claim that completion
requires the spawned count to equal the planned count. -/
theorem C3_counterexample :
    (runEv (waveStart initialGM [10] 0) [Ev.spawn 0 10, Ev.click 10 (fun _ => 0)]).waveActive
      = false ∧
    (runEv (waveStart initialGM [10] 0) [Ev.spawn 0 10, Ev.click 10 (fun _ => 0)]).crowsSpawned
      = 1 ∧
    (runEv (waveStart initialGM [10] 0) [Ev.spawn 0 10, Ev.click 10 (fun _ => 0)]).totalCrowsToSpawn
      = 0 ∧
    (runEv (waveStart initialGM [10] 0) [Ev.spawn 0 10, Ev.click 10 (fun _ => 0)]).waveTimeoutTimer
      = false := by
  refine ⟨by decide, by decide, by decide, by decide⟩

/-- The one-crop wave with its single crow assigned: the state just
before the clearing click of the C3 witness. -/
def stC3 : GM := spawnStep (waveStart initialGM [10, 11] 1) 0 10

/-- The empty completed-shape state used for the completion-transition
components of the C3 witness: planned 0, spawned 0, no crows. -/
def stC3b : GM := waveStart initialGM [10] 0

/-- C3 witness: the amended completion theorem applied at the two
concrete states, discharging every hypothesis by evaluation. -/
theorem C3_theorem_witness :
    (((checkWaveComplete stC3b).waveActive = false ∧ stC3b.waveActive = true) ↔
        (completionHolds stC3b ∧ stC3b.waveActive = true)) ∧
    (checkWaveComplete stC3b).waveTimeoutTimer = false ∧
    clickStep stC3 10 (fun _ => 0)
      = checkWaveComplete (tryAssignPausedCrows ([0].foldl destroyCrow stC3) (fun _ => 0)) ∧
    expireStep stC3 0 = checkWaveComplete (destroyCrow (expireIntermediate stC3 0) 0) :=
  ⟨(C3_theorem stC3b).1,
   (C3_theorem stC3b).2.1 (by decide) (by decide),
   (C3_theorem stC3).2.2.1 10 (fun _ => 0) [0] (by decide) (by decide) (by decide)
     (by decide) (by decide),
   (C3_theorem stC3).2.2.2 0 10 rfl
     (by
       intro t ht
       rw [show alookup stC3.crowTarget 0 = some 10 from rfl] at ht
       injection ht with h2
       subst h2
       decide)⟩

/-! ### C7: what happens when the run is won -/

/-- C7 amended: when the final wave reaches Complete (the win), the
source only deactivates the wave, advances the wave index and cancels
the wave-timeout timer, then shows the win message: gameStarted stays
set, the surviving crops are not destroyed, the tracking map, spawn
counters and bird counter keep their values, and the start button is
not restored — the orchestrator does NOT return to the idle
ready-to-start state.  The full teardown is resetGame — which resets
every flag, pool and counter — and it is invoked only on the
timeout-abort and all-crops-eaten-abort paths, never on win. -/
theorem C7_theorem (st : GM)
    (hcp : completionHolds st) (hwa : st.waveActive = true)
    (hlast : ¬ st.currentWaveIndex + 1 < st.wavesCount) :
    checkWaveComplete st
      = { st with waveActive := false,
                  currentWaveIndex := st.currentWaveIndex + 1,
                  waveTimeoutTimer := false } ∧
    (checkWaveComplete st).gameStarted = st.gameStarted ∧
    (checkWaveComplete st).spawnedCrops = st.spawnedCrops ∧
    (checkWaveComplete st).crowsSpawned = st.crowsSpawned ∧
    (checkWaveComplete st).destroyedBirds = st.destroyedBirds ∧
    (resetGame st).gameStarted = false ∧
    (resetGame st).waveActive = false ∧
    (resetGame st).spawnedCrops = [] ∧
    (resetGame st).cropsWithCrows = [] ∧
    (resetGame st).crowsSpawned = 0 ∧
    (resetGame st).destroyedBirds = 0 ∧
    (resetGame st).waveTimeoutTimer = false ∧
    (resetGame st).currentWaveIndex = 0 := by
  have hwin : checkWaveComplete st
      = { st with waveActive := false,
                  currentWaveIndex := st.currentWaveIndex + 1,
                  waveTimeoutTimer := false } := by
    unfold checkWaveComplete
    rw [if_pos ⟨hcp.1, hcp.2.1, hcp.2.2, hwa⟩, if_neg hlast]
  refine ⟨hwin, ?_, ?_, ?_, ?_, rfl, rfl, rfl, rfl, rfl, rfl, rfl, rfl⟩ <;> rw [hwin]

/-- The third (final) wave with one crop and its single crow assigned,
ready to be cleared by a click. -/
def stC7 : GM :=
  { spawnStep (waveStart initialGM [10] 1) 0 10 with currentWaveIndex := 2 }

/-- C7 counterexample: clearing the last crow of the final wave wins
the run, but the resulting state is not torn down: gameStarted is still
true (so startGame would refuse to run again), the surviving crop is
still spawned and the counters keep their values — none of the resets
that resetGame performs (and that the timeout and cascade paths do
perform) happen on the win path. -/
theorem C7_counterexample :
    (clickStep stC7 10 (fun _ => 0)).waveActive = false ∧
    (clickStep stC7 10 (fun _ => 0)).currentWaveIndex = 3 ∧
    (clickStep stC7 10 (fun _ => 0)).waveTimeoutTimer = false ∧
    (clickStep stC7 10 (fun _ => 0)).gameStarted = true ∧
    (clickStep stC7 10 (fun _ => 0)).spawnedCrops = [10] ∧
    (clickStep stC7 10 (fun _ => 0)).crowsSpawned = 1 ∧
    (clickStep stC7 10 (fun _ => 0)).destroyedBirds = 1 := by
  refine ⟨by decide, by decide, by decide, by decide, by decide, by decide, by decide⟩

/-- The final-wave state at the instant the completion predicate holds:
its single crow has been cleared already. -/
def stC7b : GM :=
  { waveStart initialGM [10] 1 with currentWaveIndex := 2, crowsSpawned := 1 }

/-- C7 witness: the win-branch theorem applied to the completed final
wave state. -/
theorem C7_theorem_witness :
    checkWaveComplete stC7b
      = { stC7b with waveActive := false,
                     currentWaveIndex := stC7b.currentWaveIndex + 1,
                     waveTimeoutTimer := false } ∧
    (checkWaveComplete stC7b).gameStarted = stC7b.gameStarted ∧
    (checkWaveComplete stC7b).spawnedCrops = stC7b.spawnedCrops ∧
    (checkWaveComplete stC7b).crowsSpawned = stC7b.crowsSpawned ∧
    (checkWaveComplete stC7b).destroyedBirds = stC7b.destroyedBirds ∧
    (resetGame stC7b).gameStarted = false ∧
    (resetGame stC7b).waveActive = false ∧
    (resetGame stC7b).spawnedCrops = [] ∧
    (resetGame stC7b).cropsWithCrows = [] ∧
    (resetGame stC7b).crowsSpawned = 0 ∧
    (resetGame stC7b).destroyedBirds = 0 ∧
    (resetGame stC7b).waveTimeoutTimer = false ∧
    (resetGame stC7b).currentWaveIndex = 0 :=
  C7_theorem stC7b (by decide) (by decide) (by decide)

/-! ### C8: a wave with an empty crop pool -/

/-- Invariant of a wave that started with zero crops: the pool and the
tracking map stay empty, the wave stays active with its planned count,
every deadline timer is paused, the paused and active lists hold the
same crows, and crows exist as soon as one spawn has fired. -/
def starvedInv (n : Nat) (st : GM) : Prop :=
  st.spawnedCrops = [] ∧ st.cropsWithCrows = [] ∧ st.waveActive = true ∧
  st.hasSpawners = true ∧ st.totalCrowsToSpawn = n ∧
  (∀ p ∈ st.crowTimer, ∃ r : ℚ, p.2 = TimerSt.pausedT r) ∧
  (∀ w ∈ st.pausedCrows, w ∈ st.activeCrows) ∧
  (∀ w ∈ st.activeCrows, w ∈ st.pausedCrows) ∧
  (st.activeCrows = [] → st.crowsSpawned = 0)

lemma findRandomCrop_starved (st : GM) (k : Nat) (hc : st.spawnedCrops = []) :
    findRandomCrop st k = none := by
  unfold findRandomCrop emptyCrops
  rw [hc]
  rfl

lemma starved_step (n : Nat) (st : GM) (h : starvedInv n st) (e : Ev)
    (he : e.isEnd = false) : starvedInv n (execEv st e) := by
  obtain ⟨hc, hm, hw, hsp, hn, ht, hpa, hap, hz⟩ := h
  cases e with
  | spawn k D =>
      show starvedInv n (spawnStep st k D)
      unfold spawnStep
      rw [if_neg (by rw [hsp]; exact fun hcon => Bool.noConfusion hcon)]
      rw [findRandomCrop_starved st k hc]
      simp only
      refine ⟨hc, hm, hw, hsp, hn, ?_, ?_, ?_, ?_⟩
      · intro p hp
        rcases mem_aset st.crowTimer st.nextCrowId (TimerSt.pausedT D) p hp with h2 | h2
        · exact ⟨D, by rw [h2]⟩
        · exact ht p h2
      · intro w hw2
        simp only [List.mem_append] at hw2 ⊢
        rcases hw2 with h2 | h2
        · exact Or.inl (hpa w h2)
        · exact Or.inr h2
      · intro w hw2
        simp only [List.mem_append] at hw2 ⊢
        rcases hw2 with h2 | h2
        · exact Or.inl (hap w h2)
        · exact Or.inr h2
      · intro hcon
        exact absurd hcon (by simp)
  | click c ks =>
      show starvedInv n (clickStep st c ks)
      unfold clickStep
      rw [if_neg (by rw [hc]; exact fun hcon => (List.not_mem_nil c) hcon.2.2)]
      exact ⟨hc, hm, hw, hsp, hn, ht, hpa, hap, hz⟩
  | enter c w =>
      show starvedInv n (triggerEnter st c w)
      unfold triggerEnter
      rw [show alookup st.cropsWithCrows c = none by rw [hm]; rfl]
      exact ⟨hc, hm, hw, hsp, hn, ht, hpa, hap, hz⟩
  | exitZone c w =>
      show starvedInv n (triggerExit st c w)
      unfold triggerExit
      rw [show alookup st.cropsWithCrows c = none by rw [hm]; rfl]
      exact ⟨hc, hm, hw, hsp, hn, ht, hpa, hap, hz⟩
  | expire w =>
      show starvedInv n (expireStep st w)
      unfold expireStep
      rcases h2 : alookup st.crowTimer w with _ | ts
      · exact ⟨hc, hm, hw, hsp, hn, ht, hpa, hap, hz⟩
      · obtain ⟨r, hr⟩ := ht (w, ts) (alookup_mem st.crowTimer w ts h2)
        simp only at hr
        rw [hr]
        exact ⟨hc, hm, hw, hsp, hn, ht, hpa, hap, hz⟩
  | timeout => exact absurd he (by simp [Ev.isEnd])
  | reset => exact absurd he (by simp [Ev.isEnd])

lemma starved_run (n : Nat) : ∀ evs : List Ev, evs.all (fun e => !e.isEnd) = true →
    ∀ st : GM, starvedInv n st → starvedInv n (runEv st evs) := by
  intro evs
  induction evs with
  | nil => intro _ st h; exact h
  | cons e rest ih =>
      intro hev st h
      rw [List.all_cons, Bool.and_eq_true] at hev
      have he : e.isEnd = false := by
        rcases hb : e.isEnd with _ | _
        · rfl
        · rw [hb] at hev; cases hev.1
      exact ih hev.2 (execEv st e) (starved_step n st h e he)

/-- C8: a wave whose crop factory produced zero crops (no crop markers
in the scene) still proceeds: the spawn timetable runs and each spawn
fires, but findRandomCrop always returns none, so every spawned crow is
immediately paused with a paused deadline timer and joins both
pausedCrows and activeCrows.  Along every sequence of spawn, click,
trigger and expiry events (no timeout, no reset) the wave stays active
and the completion predicate is false — clicks find no crop, paused
timers never expire — so the wave can only end through the round
timeout path. -/
theorem C8_theorem (n : Nat) (hn : 1 ≤ n) (evs : List Ev)
    (hev : evs.all (fun e => !e.isEnd) = true) :
    (runEv (waveStart initialGM [] n) evs).waveActive = true ∧
    ¬ completionHolds (runEv (waveStart initialGM [] n) evs) ∧
    (runEv (waveStart initialGM [] n) evs).spawnedCrops = [] ∧
    (∀ w ∈ (runEv (waveStart initialGM [] n) evs).activeCrows,
        w ∈ (runEv (waveStart initialGM [] n) evs).pausedCrows) ∧
    (∀ p ∈ (runEv (waveStart initialGM [] n) evs).crowTimer,
        ∃ r : ℚ, p.2 = TimerSt.pausedT r) ∧
    (∀ k : Nat, ∀ D : ℚ,
        (spawnStep (runEv (waveStart initialGM [] n) evs) k D).pausedCrows
          = (runEv (waveStart initialGM [] n) evs).pausedCrows
            ++ [(runEv (waveStart initialGM [] n) evs).nextCrowId]) := by
  have h0 : starvedInv n (waveStart initialGM [] n) := by
    refine ⟨rfl, rfl, rfl, rfl, rfl, ?_, ?_, ?_, ?_⟩
    · intro p hp; cases hp
    · intro w hw; cases hw
    · intro w hw; cases hw
    · intro _; rfl
  have hI := starved_run n evs hev (waveStart initialGM [] n) h0
  obtain ⟨hc, hm, hw, hsp, hn2, ht, hpa, hap, hz⟩ := hI
  refine ⟨hw, ?_, hc, hap, ht, ?_⟩
  · intro ⟨h1, h2, _⟩
    rw [hn2] at h1
    rw [hz h2] at h1
    omega
  · intro k D
    unfold spawnStep
    rw [if_neg (by rw [hsp]; exact fun hcon => Bool.noConfusion hcon)]
    rw [findRandomCrop_starved _ k hc]

/-- C8 witness: the starvation theorem at n = 2 along a trace with two
spawns, a click attempt, a trigger entry attempt and an expiry attempt. -/
theorem C8_theorem_witness :
    (runEv (waveStart initialGM [] 2)
        [Ev.spawn 0 10, Ev.spawn 1 10, Ev.click 0 (fun _ => 0), Ev.enter 0 0,
         Ev.expire 0]).waveActive = true ∧
    ¬ completionHolds (runEv (waveStart initialGM [] 2)
        [Ev.spawn 0 10, Ev.spawn 1 10, Ev.click 0 (fun _ => 0), Ev.enter 0 0,
         Ev.expire 0]) ∧
    (runEv (waveStart initialGM [] 2)
        [Ev.spawn 0 10, Ev.spawn 1 10, Ev.click 0 (fun _ => 0), Ev.enter 0 0,
         Ev.expire 0]).spawnedCrops = [] ∧
    (∀ w ∈ (runEv (waveStart initialGM [] 2)
        [Ev.spawn 0 10, Ev.spawn 1 10, Ev.click 0 (fun _ => 0), Ev.enter 0 0,
         Ev.expire 0]).activeCrows,
        w ∈ (runEv (waveStart initialGM [] 2)
        [Ev.spawn 0 10, Ev.spawn 1 10, Ev.click 0 (fun _ => 0), Ev.enter 0 0,
         Ev.expire 0]).pausedCrows) ∧
    (∀ p ∈ (runEv (waveStart initialGM [] 2)
        [Ev.spawn 0 10, Ev.spawn 1 10, Ev.click 0 (fun _ => 0), Ev.enter 0 0,
         Ev.expire 0]).crowTimer,
        ∃ r : ℚ, p.2 = TimerSt.pausedT r) ∧
    (∀ k : Nat, ∀ D : ℚ,
        (spawnStep (runEv (waveStart initialGM [] 2)
            [Ev.spawn 0 10, Ev.spawn 1 10, Ev.click 0 (fun _ => 0), Ev.enter 0 0,
             Ev.expire 0]) k D).pausedCrows
          = (runEv (waveStart initialGM [] 2)
            [Ev.spawn 0 10, Ev.spawn 1 10, Ev.click 0 (fun _ => 0), Ev.enter 0 0,
             Ev.expire 0]).pausedCrows
            ++ [(runEv (waveStart initialGM [] 2)
            [Ev.spawn 0 10, Ev.spawn 1 10, Ev.click 0 (fun _ => 0), Ev.enter 0 0,
             Ev.expire 0]).nextCrowId]) :=
  C8_theorem 2 (by decide)
    [Ev.spawn 0 10, Ev.spawn 1 10, Ev.click 0 (fun _ => 0), Ev.enter 0 0, Ev.expire 0]
    (by rfl)

/-! ### C9: clearing a crop and promoting paused crows -/

lemma decide_not_mem_cons (w : Nat) (s : List Nat) (x : Nat) :
    (decide (x ∉ w :: s)) = (decide (x ∉ s) && decide (x ≠ w)) := by
  by_cases h1 : x = w <;> by_cases h2 : x ∈ s <;> simp [h1, h2]

lemma filter_destroy_compose (w : Nat) (s : List Nat) (l : List Nat) :
    (l.filter (fun x => decide (x ≠ w))).filter (fun x => decide (x ∉ s))
      = l.filter (fun x => decide (x ∉ w :: s)) := by
  rw [List.filter_filter]
  exact (List.filter_congr (fun x _ => decide_not_mem_cons w s x)).symm

lemma foldDestroy_active : ∀ (s : List Nat) (st : GM),
    (s.foldl destroyCrow st).activeCrows
      = st.activeCrows.filter (fun x => decide (x ∉ s)) := by
  intro s
  induction s with
  | nil =>
      intro st
      rw [show st.activeCrows.filter (fun x => decide (x ∉ ([] : List Nat)))
          = st.activeCrows.filter (fun _ => true) from
        List.filter_congr (fun x _ => by simp)]
      rw [List.filter_true]
      rfl
  | cons w rest ih =>
      intro st
      rw [show (w :: rest).foldl destroyCrow st = rest.foldl destroyCrow (destroyCrow st w)
        from rfl]
      rw [ih (destroyCrow st w)]
      rw [show (destroyCrow st w).activeCrows = st.activeCrows.filter (fun x => decide (x ≠ w))
        from rfl]
      exact filter_destroy_compose w rest st.activeCrows

lemma foldDestroy_paused : ∀ (s : List Nat) (st : GM),
    (s.foldl destroyCrow st).pausedCrows
      = st.pausedCrows.filter (fun x => decide (x ∉ s)) := by
  intro s
  induction s with
  | nil =>
      intro st
      rw [show st.pausedCrows.filter (fun x => decide (x ∉ ([] : List Nat)))
          = st.pausedCrows.filter (fun _ => true) from
        List.filter_congr (fun x _ => by simp)]
      rw [List.filter_true]
      rfl
  | cons w rest ih =>
      intro st
      rw [show (w :: rest).foldl destroyCrow st = rest.foldl destroyCrow (destroyCrow st w)
        from rfl]
      rw [ih (destroyCrow st w)]
      rw [show (destroyCrow st w).pausedCrows = st.pausedCrows.filter (fun x => decide (x ≠ w))
        from rfl]
      exact filter_destroy_compose w rest st.pausedCrows

lemma foldDestroy_crops : ∀ (s : List Nat) (st : GM),
    (s.foldl destroyCrow st).cropsWithCrows
      = st.cropsWithCrows.map (fun p => (p.1, p.2.filter (fun x => decide (x ∉ s)))) := by
  intro s
  induction s with
  | nil =>
      intro st
      rw [show st.cropsWithCrows.map
            (fun p => (p.1, p.2.filter (fun x => decide (x ∉ ([] : List Nat)))))
          = st.cropsWithCrows.map (fun p => (p.1, p.2)) by
        apply List.map_congr_left
        intro p _
        rw [show p.2.filter (fun x => decide (x ∉ ([] : List Nat)))
            = p.2.filter (fun _ => true) from List.filter_congr (fun x _ => by simp)]
        rw [List.filter_true]]
      simp
  | cons w rest ih =>
      intro st
      rw [show (w :: rest).foldl destroyCrow st = rest.foldl destroyCrow (destroyCrow st w)
        from rfl]
      rw [ih (destroyCrow st w)]
      rw [show (destroyCrow st w).cropsWithCrows
          = st.cropsWithCrows.map (fun p => (p.1, p.2.filter (fun x => decide (x ≠ w))))
        from rfl]
      rw [List.map_map]
      apply List.map_congr_left
      intro p _
      show (p.1, (p.2.filter (fun x => decide (x ≠ w))).filter (fun x => decide (x ∉ rest)))
          = (p.1, p.2.filter (fun x => decide (x ∉ w :: rest)))
      rw [filter_destroy_compose w rest p.2]

lemma foldDestroy_timer : ∀ (s : List Nat) (st : GM) (w : Nat),
    alookup (s.foldl destroyCrow st).crowTimer w
      = if w ∈ s then some TimerSt.cancelled else alookup st.crowTimer w := by
  intro s
  induction s with
  | nil => intro st w; simp
  | cons x rest ih =>
      intro st w
      rw [show (x :: rest).foldl destroyCrow st = rest.foldl destroyCrow (destroyCrow st x)
        from rfl]
      rw [ih (destroyCrow st x) w]
      by_cases h1 : w ∈ rest
      · rw [if_pos h1, if_pos (List.mem_cons_of_mem _ h1)]
      · rw [if_neg h1]
        by_cases h2 : w = x
        · subst h2
          rw [if_pos (List.mem_cons_self _ _)]
          exact alookup_aset_self st.crowTimer w TimerSt.cancelled
        · rw [if_neg (by intro hc; rcases List.mem_cons.mp hc with hc | hc; exact h2 hc; exact h1 hc)]
          exact alookup_aset_other st.crowTimer x w TimerSt.cancelled h2

lemma foldDestroy_misc : ∀ (s : List Nat) (st : GM),
    (s.foldl destroyCrow st).spawnedCrops = st.spawnedCrops ∧
    (s.foldl destroyCrow st).crowTarget = st.crowTarget ∧
    (s.foldl destroyCrow st).waveActive = st.waveActive ∧
    (s.foldl destroyCrow st).gameStarted = st.gameStarted ∧
    (s.foldl destroyCrow st).totalCrowsToSpawn = st.totalCrowsToSpawn ∧
    (s.foldl destroyCrow st).crowsSpawned = st.crowsSpawned := by
  intro s
  induction s with
  | nil => intro st; exact ⟨rfl, rfl, rfl, rfl, rfl, rfl⟩
  | cons x rest ih =>
      intro st
      exact ih (destroyCrow st x)

/-- C9: clicking the one crop of a wave while it has occupants and two
crows are paused destroys every occupant (timer cancelled, removed from
the active and paused lists and from the tracking set), frees the crop,
then promotes exactly the first paused crow onto the now-free crop,
resuming its timer with its frozen remaining time; the second paused
crow remains paused with its own frozen remaining time intact, because
the promotion loop re-runs findRandomCrop and the freed crop is
occupied again after the first promotion. -/
theorem C9_theorem (st : GM) (c p q : Nat) (s : List Nat) (rp rq : ℚ)
    (hg : st.gameStarted = true) (hw : st.waveActive = true)
    (hcrops : st.spawnedCrops = [c])
    (hmap : st.cropsWithCrows = [(c, s)])
    (hs : s ≠ [])
    (hpl : st.pausedCrows = [p, q])
    (hpq : p ≠ q) (hps : p ∉ s) (hqs : q ∉ s)
    (htp : alookup st.crowTimer p = some (TimerSt.pausedT rp)) (hrp : 0 < rp)
    (htq : alookup st.crowTimer q = some (TimerSt.pausedT rq))
    (ks : Nat → Nat) :
    (∀ w ∈ s, alookup (clickStep st c ks).crowTimer w = some TimerSt.cancelled) ∧
    (∀ w ∈ s, w ∉ (clickStep st c ks).activeCrows) ∧
    (∀ w ∈ s, w ∉ (clickStep st c ks).pausedCrows) ∧
    alookup (clickStep st c ks).cropsWithCrows c = some [p] ∧
    (clickStep st c ks).pausedCrows = [q] ∧
    alookup (clickStep st c ks).crowTimer p = some (TimerSt.running rp) ∧
    alookup (clickStep st c ks).crowTimer q = some (TimerSt.pausedT rq) := by
  have hqp : q ≠ p := fun h => hpq h.symm
  -- the state after the destruction loop over the occupants
  have hclick : clickStep st c ks
      = checkWaveComplete (tryAssignPausedCrows (s.foldl destroyCrow st) ks) := by
    unfold clickStep
    rw [if_pos ⟨hg, hw, by rw [hcrops]; exact List.mem_cons_self _ _⟩]
    unfold handleCropClick
    rw [show alookup st.cropsWithCrows c = some s by rw [hmap]; simp [alookup]]
    simp only
    rw [if_neg hs]
  have hFsp : (s.foldl destroyCrow st).spawnedCrops = [c] := by
    rw [(foldDestroy_misc s st).1, hcrops]
  have hFmap : (s.foldl destroyCrow st).cropsWithCrows = [(c, [])] := by
    rw [foldDestroy_crops s st, hmap]
    simp only [List.map_cons, List.map_nil]
    rw [show s.filter (fun x => decide (x ∉ s)) = [] from
      List.filter_eq_nil_iff.mpr (fun a ha => by simp [ha])]
  have hFpaused : (s.foldl destroyCrow st).pausedCrows = [p, q] := by
    rw [foldDestroy_paused s st, hpl]
    simp [hps, hqs]
  have hFtp : alookup (s.foldl destroyCrow st).crowTimer p = some (TimerSt.pausedT rp) := by
    rw [foldDestroy_timer s st p, if_neg hps]
    exact htp
  have hFtq : alookup (s.foldl destroyCrow st).crowTimer q = some (TimerSt.pausedT rq) := by
    rw [foldDestroy_timer s st q, if_neg hqs]
    exact htq
  -- findRandomCrop after the destruction: the freed crop itself
  have hFfind : ∀ k : Nat, findRandomCrop (s.foldl destroyCrow st) k = some c := by
    intro k
    unfold findRandomCrop emptyCrops
    rw [hFsp]
    rw [show List.filter (cropIsEmpty (s.foldl destroyCrow st)) [c] = [c] by
      rw [List.filter_cons]
      rw [show cropIsEmpty (s.foldl destroyCrow st) c = true by
        unfold cropIsEmpty
        rw [hFmap]
        simp [alookup]]
      rfl]
    rw [show [c].length = 1 from rfl, Nat.mod_one]
    rfl
  -- the promotion loop assigns p and then breaks on q
  have hAmap : (assignOne (s.foldl destroyCrow st) p c).cropsWithCrows = [(c, [p])] := by
    show addCrowToCrop (s.foldl destroyCrow st).cropsWithCrows c p = [(c, [p])]
    rw [hFmap]
    unfold addCrowToCrop
    rw [show alookup [(c, ([] : List Nat))] c = some [] by simp [alookup]]
    simp [aset]
  have hApaused : (assignOne (s.foldl destroyCrow st) p c).pausedCrows = [q] := by
    show (s.foldl destroyCrow st).pausedCrows.filter (· ≠ p) = [q]
    rw [hFpaused]
    simp [List.filter_cons, hqp]
  have hAtimer : (assignOne (s.foldl destroyCrow st) p c).crowTimer
      = aset (s.foldl destroyCrow st).crowTimer p (TimerSt.running rp) := by
    unfold assignOne
    dsimp only
    rw [hFtp]
    dsimp only
    rw [if_pos hrp]
  have hAsp : (assignOne (s.foldl destroyCrow st) p c).spawnedCrops = [c] := by
    show (s.foldl destroyCrow st).spawnedCrops = [c]
    exact hFsp
  have hAfind : ∀ k : Nat, findRandomCrop (assignOne (s.foldl destroyCrow st) p c) k
      = none := by
    intro k
    unfold findRandomCrop emptyCrops
    rw [hAsp]
    rw [show List.filter (cropIsEmpty (assignOne (s.foldl destroyCrow st) p c)) [c] = [] by
      rw [List.filter_cons]
      rw [show cropIsEmpty (assignOne (s.foldl destroyCrow st) p c) c = false by
        unfold cropIsEmpty
        rw [hAmap]
        simp [alookup]]
      rfl]
    rfl
  have hloop : tryAssignPausedCrows (s.foldl destroyCrow st) ks
      = assignOne (s.foldl destroyCrow st) p c := by
    unfold tryAssignPausedCrows
    rw [if_neg (by rw [hFpaused]; exact List.cons_ne_nil _ _)]
    rw [if_pos (by rw [hFfind (ks 0)]; rfl)]
    rw [hFpaused]
    rw [show tryAssignLoop (s.foldl destroyCrow st) [p, q] ks 1
        = tryAssignLoop (assignOne (s.foldl destroyCrow st) p c) [q] ks 2 by
      rw [tryAssignLoop.eq_def]
      simp [hFfind (ks 1)]]
    rw [show tryAssignLoop (assignOne (s.foldl destroyCrow st) p c) [q] ks 2
        = assignOne (s.foldl destroyCrow st) p c by
      rw [tryAssignLoop.eq_def]
      simp [hAfind (ks 2)]]
  have hcwc : checkWaveComplete (assignOne (s.foldl destroyCrow st) p c)
      = assignOne (s.foldl destroyCrow st) p c := by
    unfold checkWaveComplete
    rw [if_neg (by
      intro hcon
      rw [hApaused] at hcon
      exact List.cons_ne_nil _ _ hcon.2.2.1)]
  have hpost : clickStep st c ks = assignOne (s.foldl destroyCrow st) p c := by
    rw [hclick, hloop, hcwc]
  refine ⟨?_, ?_, ?_, ?_, ?_, ?_, ?_⟩
  · intro w hw2
    rw [hpost, hAtimer]
    rw [alookup_aset_other _ p w _ (fun h => hps (h ▸ hw2))]
    rw [foldDestroy_timer s st w, if_pos hw2]
  · intro w hw2
    rw [hpost]
    rw [show (assignOne (s.foldl destroyCrow st) p c).activeCrows
        = (s.foldl destroyCrow st).activeCrows from rfl]
    rw [foldDestroy_active s st]
    intro hc2
    rcases List.mem_filter.mp hc2 with ⟨_, hdec⟩
    simp at hdec
    exact hdec hw2
  · intro w hw2
    rw [hpost, hApaused]
    intro hc2
    rcases List.mem_cons.mp hc2 with hc2 | hc2
    · exact hqs (hc2 ▸ hw2)
    · cases hc2
  · rw [hpost, hAmap]
    simp [alookup]
  · rw [hpost, hApaused]
  · rw [hpost, hAtimer]
    exact alookup_aset_self _ p _
  · rw [hpost, hAtimer]
    rw [alookup_aset_other _ p q _ hqp]
    exact hFtq

/-- The one-crop wave with crow 0 assigned to the crop and crows 1 and 2
paused, built by three spawns. -/
def stC9 : GM :=
  spawnStep (spawnStep (spawnStep (waveStart initialGM [10] 3) 0 10) 0 10) 0 10

/-- C9 witness: the clear/promotion theorem applied to the one-crop
wave with occupant crow 0 and paused crows 1 and 2. -/
theorem C9_theorem_witness :
    (∀ w ∈ [0], alookup (clickStep stC9 10 (fun _ => 0)).crowTimer w
        = some TimerSt.cancelled) ∧
    (∀ w ∈ [0], w ∉ (clickStep stC9 10 (fun _ => 0)).activeCrows) ∧
    (∀ w ∈ [0], w ∉ (clickStep stC9 10 (fun _ => 0)).pausedCrows) ∧
    alookup (clickStep stC9 10 (fun _ => 0)).cropsWithCrows 10 = some [1] ∧
    (clickStep stC9 10 (fun _ => 0)).pausedCrows = [2] ∧
    alookup (clickStep stC9 10 (fun _ => 0)).crowTimer 1 = some (TimerSt.running 10) ∧
    alookup (clickStep stC9 10 (fun _ => 0)).crowTimer 2 = some (TimerSt.pausedT 10) :=
  C9_theorem stC9 10 1 2 [0] 10 10 rfl rfl rfl rfl (by decide) rfl (by decide)
    (by decide) (by decide) rfl (by decide) rfl (fun _ => 0)

end Scarecrow
